import Mathlib

/-!
Shallow embedding of the StorPool Python API bindings' typed
schema/validation/marshalling engine (`storpool/spcatch.py`,
`storpool/sptype.py`, `storpool/sptypes.py`, `storpool/spjson.py`,
`storpool/spapi.py`) together with proofs about its behaviour.

Python values flowing through the validators are modelled by `PVal`;
Python exceptions by `SpErr` (distinguishing `InvalidArgumentError`,
which carries a best-effort partially-constructed value, from every
other exception kind).  Fallible Python code is modelled with
`Except SpErr`.  Documentation-node side effects (`spdoc`) are omitted:
they carry no validation behaviour.
-/

/-- Dynamic Python values handled by the validation engine: JSON scalars,
lists, dicts (association lists of key/value pairs) and constructed
`JsonObjectImpl` record instances (class name plus attribute map, where a
failed attribute is stored as `PVal.none`, mirroring Python `None`). -/
inductive PVal where
  | none
  | bool (b : Bool)
  | int (n : Int)
  | str (s : String)
  | list (xs : List PVal)
  | dict (xs : List (PVal × PVal))
  | obj (cls : String) (fields : List (PVal × PVal))

mutual

/-- Python `==` on the values above (structural equality). -/
def pvalBeq : PVal → PVal → Bool
  | .none, .none => true
  | .bool x, .bool y => x == y
  | .int x, .int y => x == y
  | .str x, .str y => x == y
  | .list xs, .list ys => plistBeq xs ys
  | .dict xs, .dict ys => pdictBeq xs ys
  | .obj c fs, .obj d gs => (c == d) && pdictBeq fs gs
  | _, _ => false

/-- Python `==` on lists of values. -/
def plistBeq : List PVal → List PVal → Bool
  | [], [] => true
  | x :: xs, y :: ys => pvalBeq x y && plistBeq xs ys
  | _, _ => false

/-- Python `==` on dict entry lists. -/
def pdictBeq : List (PVal × PVal) → List (PVal × PVal) → Bool
  | [], [] => true
  | (k, v) :: xs, (l, w) :: ys => pvalBeq k l && pvalBeq v w && pdictBeq xs ys
  | _, _ => false

end

/-- Python exceptions as seen by `spcatch`: `invalidArg` models
`spcatch.InvalidArgumentError` (message plus optional `partial` payload);
`plain` models any other exception (its Python class name and message). -/
inductive SpErr where
  | invalidArg (msg : String) (part : Option PVal)
  | plain (kind : String) (msg : String)

/-- The `partial` member of an exception: `none` for non-`InvalidArgumentError`
exceptions (which have no such member). -/
def SpErr.partOf : SpErr → Option PVal
  | .invalidArg _ p => p
  | .plain _ _ => Option.none

/-- Whether an exception is an `InvalidArgumentError`. -/
def SpErr.isIA : SpErr → Bool
  | .invalidArg _ _ => true
  | .plain _ _ => false

/-- `spcatch.error(fmt, partial, ...)`: raise an `InvalidArgumentError`. -/
def spError (msg : String) (part : Option PVal := Option.none) :
    Except SpErr PVal :=
  .error (.invalidArg msg part)

/-- `spcatch.sp_catch(handle, func, exc)`.  `res` is the outcome of `func()`
(the thunk's return value or the exception it raised); `handle` is modelled
as a state update (in the source it is always an append/add/assign closure).
On success the result is handed to `handle`; on `InvalidArgumentError` the
non-`None` partial is still handed to `handle`, and the exception replaces
the remembered one unless an `InvalidArgumentError` is already remembered;
any other exception is remembered only when nothing is remembered yet. -/
def sp_catch {σ : Type} (handle : PVal → σ → σ) (s : σ)
    (res : Except SpErr PVal) (exc : Option SpErr) : σ × Option SpErr :=
  match res with
  | .ok v => (handle v s, exc)
  | .error (.invalidArg m p) =>
      let s' := match p with
        | some pv => handle pv s
        | Option.none => s
      match exc with
      | Option.none => (s', some (.invalidArg m p))
      | some (.invalidArg m0 p0) => (s', some (.invalidArg m0 p0))
      | some (.plain _ _) => (s', some (.invalidArg m p))
  | .error (.plain k m) =>
      match exc with
      | Option.none => (s, some (.plain k m))
      | some e => (s, some e)

/-- `spcatch.sp_caught(exc, name, partial)`: `none` means no exception is
re-raised; otherwise the returned `InvalidArgumentError` has its message
prefixed with `name` and its partial payload replaced by `part`. -/
def sp_caught (exc : Option SpErr) (name : String) (part : PVal) :
    Option SpErr :=
  match exc with
  | Option.none => Option.none
  | some (.invalidArg m _) => some (.invalidArg (name ++ ": " ++ m) (some part))
  | some (.plain _ m) => some (.invalidArg (name ++ ": " ++ m) (some part))

example : (sp_catch (fun v l => l ++ [v]) ([] : List PVal)
    (.ok (.int 616)) Option.none) = ([.int 616], Option.none) := rfl

example : (sp_catch (fun v l => l ++ [v]) ([] : List PVal)
    (.error (.invalidArg "static" (some (.int 42))))
    (some (.plain "ValueError" "whee"))).2
    = some (.invalidArg "static" (some (.int 42))) := rfl

/-! ## Primitive Python operations used by the validators -/

/-- Decimal digit-string parse (helper for the Python `int(x)` model). -/
def digitsToNat (cs : List Char) : Option Nat :=
  if cs ≠ [] ∧ cs.all Char.isDigit then
    some (cs.foldl (fun n c => n * 10 + (c.toNat - '0'.toNat)) 0)
  else Option.none

/-- Python `int("...")` string parse: an optional sign followed by digits. -/
def pyStrToInt (s : String) : Option Int :=
  match s.toList with
  | '-' :: cs => (digitsToNat cs).map (fun n => -(n : Int))
  | '+' :: cs => (digitsToNat cs).map (fun n => (n : Int))
  | cs => (digitsToNat cs).map (fun n => (n : Int))

/-- Python `int(x)` coercion: ints and bools pass (bools are ints in Python),
strings are parsed (raising `ValueError` on a non-numeric literal), and any
other value raises `TypeError`. -/
def pyIntCore : PVal → Except SpErr Int
  | .int n => .ok n
  | .bool b => .ok (if b then 1 else 0)
  | .str s =>
      match pyStrToInt s with
      | some n => .ok n
      | Option.none =>
          .error (.plain "ValueError" ("invalid literal for int(): " ++ s))
  | _ => .error (.plain "TypeError" "int() argument must be a string or a number")

/-- Python iteration as used by `functools.reduce` in `spList`: lists yield
their elements, strings their one-character substrings, dicts their keys;
other values raise `TypeError`.  (Iteration over record instances through the
obsolete `JsonObjectImpl.__iter__` is not modelled; no declared type uses it.) -/
def pyIter : PVal → Except SpErr (List PVal)
  | .list xs => .ok xs
  | .str s => .ok (s.toList.map (fun c => .str (String.mk [c])))
  | .dict xs => .ok (xs.map Prod.fst)
  | _ => .error (.plain "TypeError" "object is not iterable")

/-- `six.iteritems(xs)` as used by `spDict.buildDict`: only dicts have items;
anything else raises `AttributeError`. -/
def pyItems : PVal → Except SpErr (List (PVal × PVal))
  | .dict xs => .ok xs
  | _ => .error (.plain "AttributeError" "object has no attribute items")

/-- Python association-list lookup (`j[attr]` / `attr in j`), by `==`. -/
def lookupPy (xs : List (PVal × PVal)) (k : PVal) : Option PVal :=
  (xs.find? (fun kv => pvalBeq kv.1 k)).map Prod.snd

/-- Python dict assignment `d[k] = v`: replace the value under an existing
equal key, otherwise append the new entry. -/
def upsertPy (d : List (PVal × PVal)) (k v : PVal) : List (PVal × PVal) :=
  if d.any (fun kv => pvalBeq kv.1 k) then
    d.map (fun kv => if pvalBeq kv.1 k then (kv.1, v) else kv)
  else d ++ [(k, v)]

/-- `dict.update` with keyword arguments (string keys). -/
def pyUpdate (j : List (PVal × PVal)) (kwargs : List (String × PVal)) :
    List (PVal × PVal) :=
  kwargs.foldl (fun acc kv => upsertPy acc (.str kv.1) kv.2) j

/-- `dict(json)`: a dict is copied; a record instance is converted through its
`__iter__` (which yields its `to_json` items); other values raise. -/
def pyDictOf : PVal → Except SpErr (List (PVal × PVal))
  | .dict xs => .ok xs
  | .obj _ fields => .ok fields
  | _ => .error (.plain "TypeError" "cannot convert object to dict")

/-! ## `sptype.SpType` and its combinators -/

/-- `sptype.SpType` (named tuple): a display name, the `handleVal` validator
and the `defaultVal` provider.  The `spDoc` documentation node is omitted. -/
structure SpType where
  name : String
  handleVal : PVal → Except SpErr PVal
  defaultVal : Except SpErr PVal

/-- The `data.append` handler used with `sp_catch` throughout the engine. -/
def appendHandle : PVal → List PVal → List PVal := fun v l => l ++ [v]

/-- `spType(int)`: the Python `int` class used directly as a validator; its
default-value provider raises. -/
def spTypeInt : SpType :=
  { name := "int"
    handleVal := fun v => (pyIntCore v).map PVal.int
    defaultVal := .error (.invalidArg "No default value for int" Option.none) }

/-- The element fold of `spList.buildList`: validate each element through
`sp_catch`, appending successes (and non-`None` partial payloads of
`InvalidArgumentError`s) to the output list. -/
def buildListFold (valT : PVal → Except SpErr PVal) (xs : List PVal) :
    List PVal × Option SpErr :=
  xs.foldl (fun acc x => sp_catch appendHandle acc.1 (valT x) acc.2)
    ([], Option.none)

/-- `spList([subType]).handleVal`: iterate the input, validate every element
independently, then report through `sp_caught` with the partial list. -/
def buildList (valT : PVal → Except SpErr PVal) (name : String) (v : PVal) :
    Except SpErr PVal :=
  match pyIter v with
  | .error e => .error e
  | .ok xs =>
      let r := buildListFold valT xs
      match sp_caught r.2 name (.list r.1) with
      | Option.none => .ok (.list r.1)
      | some e => .error e

/-- `sptype.spList`: the list-of combinator.  Its default is the empty list. -/
def spList (subType : SpType) : SpType :=
  { name := "[" ++ subType.name ++ "]"
    handleVal := buildList subType.handleVal ("[" ++ subType.name ++ "]")
    defaultVal := .ok (.list []) }

/-- One entry of `spDict.buildDict`: validate the key; when the key step left
something in `data` (a validated key or a key-failure partial), validate the
value too and store the entry (the value-failure partial, or `None` when the
value step left nothing). -/
def dictEntryStep (keyT valT : PVal → Except SpErr PVal)
    (acc : List (PVal × PVal) × Option SpErr) (ent : PVal × PVal) :
    List (PVal × PVal) × Option SpErr :=
  let c1 := sp_catch appendHandle [] (keyT ent.1) acc.2
  match c1.1 with
  | [] => (acc.1, c1.2)
  | k :: _ =>
      let c2 := sp_catch appendHandle c1.1 (valT ent.2) c1.2
      match c2.1 with
      | [_, v] => (upsertPy acc.1 k v, c2.2)
      | _ => (upsertPy acc.1 k .none, c2.2)

/-- `spDict({keyType: valueType}).handleVal`: validate each entry's key and
value independently, then report through `sp_caught` with the partial dict. -/
def buildDict (keyT valT : PVal → Except SpErr PVal) (name : String)
    (v : PVal) : Except SpErr PVal :=
  match pyItems v with
  | .error e => .error e
  | .ok xs =>
      let r := xs.foldl (dictEntryStep keyT valT) ([], Option.none)
      match sp_caught r.2 name (.dict r.1) with
      | Option.none => .ok (.dict r.1)
      | some e => .error e

/-- `sptype.spDict`: the map-of combinator.  Its default is the empty dict. -/
def spDict (keySt valSt : SpType) : SpType :=
  { name := "\x7b" ++ keySt.name ++ ": " ++ valSt.name ++ "\x7d"
    handleVal := buildDict keySt.handleVal valSt.handleVal
      ("\x7b" ++ keySt.name ++ ": " ++ valSt.name ++ "\x7d")
    defaultVal := .ok (.dict []) }

/-- `sptype.const(constVal)`: accepts (and returns) only a value `==` to the
constant; its default is the constant itself. -/
def const (constVal : PVal) : SpType :=
  { name := "const"
    handleVal := fun v =>
      if pvalBeq v constVal then .ok v
      else .error (.invalidArg "Trying to assign a value to const val" Option.none)
    defaultVal := .ok constVal }

/-- The validator loop of `sptype.either`: try each component in declaration
order, swallowing every exception; when none succeeds, raise the generic
"no match" error (with no partial value). -/
def eitherHandle : List SpType → PVal → Except SpErr PVal
  | [], _ => .error (.invalidArg "The value does not match any type" Option.none)
  | t :: ts, v =>
      match t.handleVal v with
      | .ok r => .ok r
      | .error _ => eitherHandle ts v

/-- `sptype.either(*types)`: the union combinator.  Note that its declaration
never fails, whatever the number of alternatives; it has no default value. -/
def either (types : List SpType) : SpType :=
  { name := "Either(" ++ String.intercalate ", " (types.map SpType.name) ++ ")"
    handleVal := eitherHandle types
    defaultVal := .error (.invalidArg "No default value for either type" Option.none) }

/-- `sptypes.intRange(argName, min, max)`: coerce through `int()` (only
`ValueError` is turned into an `InvalidArgumentError`; `TypeError`, e.g. for
`None` input, propagates) and check the bounds. -/
def intRange (argName : String) (min max : Int) : SpType :=
  { name := argName
    handleVal := fun v =>
      match pyIntCore v with
      | .ok n =>
          if n < min ∨ n > max then
            .error (.invalidArg ("Invalid " ++ argName ++ ". Must be between "
              ++ toString min ++ " and " ++ toString max) Option.none)
          else .ok (.int n)
      | .error (.plain k m) =>
          if k = "ValueError" then
            .error (.invalidArg ("Invalid " ++ argName
              ++ ". Must be an integer") Option.none)
          else .error (.plain k m)
      | .error e => .error e
    defaultVal :=
      .error (.invalidArg ("No default value for " ++ argName) Option.none) }

/-- `sptypes.namedEnum(argName, names, first)`: coerce through `int()`, check
the bounds and map the integer to its name.  The source's `except ValueError`
branch calls `error` with a format string referencing `argName` but WITHOUT the
`argName` keyword argument, so `fmt.format(**kwargs)` inside
`InvalidArgumentError.__init__` raises a `KeyError` naming `argName` instead of the
intended `InvalidArgumentError`; the model reproduces that faithfully. -/
def namedEnum (argName : String) (names : List String) (first : Int) : SpType :=
  { name := argName
    handleVal := fun v =>
      match pyIntCore v with
      | .ok n =>
          if n < first ∨ n ≥ first + names.length then
            .error (.invalidArg ("Invalid " ++ argName ++ " value "
              ++ toString n ++ ". Must be between " ++ toString first
              ++ " and " ++ toString (first + names.length - 1)) Option.none)
          else .ok (.str (names.getD (n - first).toNat ""))
      | .error (.plain k m) =>
          if k = "ValueError" then .error (.plain "KeyError" "argName")
          else .error (.plain k m)
      | .error e => .error e
    defaultVal :=
      .error (.invalidArg ("No default value for " ++ argName) Option.none) }

/-- The names of `sptypes.ObjectState`, the one `namedEnum` type declared by
the bindings. -/
def objectStateNames : List String :=
  ["OBJECT_UNDEF", "OBJECT_OK", "OBJECT_OUTDATED", "OBJECT_IN_RECOVERY",
   "OBJECT_WAITING_FOR_VERSION", "OBJECT_WAITING_FOR_DISK",
   "OBJECT_DATA_NOT_PRESENT", "OBJECT_DATA_LOST", "OBJECT_WAINING_FOR_CHAIN",
   "OBJECT_WAIT_IDLE"]

/-- `sptypes.ObjectState = namedEnum("ObjectState", [...], first=0)`. -/
def ObjectState : SpType := namedEnum "ObjectState" objectStateNames 0

/-! ## `spjson.JsonObjectImpl`: the structured record builder -/

/-- One field of `JsonObjectImpl.__new__`'s loop body (the thunk handed to
`sp_catch`): `attr_def.handleVal(j[attr])` when the key is present, else
`attr_def.defaultVal()`. -/
def fieldStep (j : List (PVal × PVal)) (attr : String) (d : SpType) :
    Except SpErr PVal :=
  match lookupPy j (.str attr) with
  | some v => d.handleVal v
  | Option.none => d.defaultVal

/-- The field loop of `JsonObjectImpl.__new__`: every declared field is
attempted through `sp_catch`; the stored attribute is `data[0]` when the step
left something in `data` (the validated value, or the non-`None` partial of a
failed step), else `None`. -/
def buildRecordFold (defs : List (String × SpType)) (j : List (PVal × PVal)) :
    List (PVal × PVal) × Option SpErr :=
  defs.foldl (fun acc ad =>
    let c := sp_catch appendHandle [] (fieldStep j ad.1 ad.2) acc.2
    (acc.1 ++ [(.str ad.1, c.1.headD .none)], c.2)) ([], Option.none)

/-- `JsonObjectImpl.__new__` after the raw map has been obtained: run the
field loop, then report through `sp_caught` with the instance itself as the
partial payload. -/
def buildRecord (clsName : String) (defs : List (String × SpType))
    (j : List (PVal × PVal)) : Except SpErr PVal :=
  let r := buildRecordFold defs j
  match sp_caught r.2 clsName (.obj clsName r.1) with
  | Option.none => .ok (.obj clsName r.1)
  | some e => .error e

/-- `JsonObjectImpl.__new__(cls, json=None, **kwargs)` in full: an input that
is already an instance of this record type is returned unchanged (keyword
overrides then fail the `assert not kwargs`); otherwise the input is converted
to a dict, updated with the keyword overrides, and the field loop runs. -/
def jsonObjectNew (clsName : String) (defs : List (String × SpType))
    (json : Option PVal) (kwargs : List (String × PVal)) :
    Except SpErr PVal :=
  match json with
  | some (.obj cn fields) =>
      if cn = clsName then
        if kwargs.isEmpty then .ok (.obj cn fields)
        else .error (.plain "AssertionError"
          "Unsupported update on already contructed object")
      else
        match pyDictOf (.obj cn fields) with
        | .ok j => buildRecord clsName defs (pyUpdate j kwargs)
        | .error e => .error e
  | some v =>
      match pyDictOf v with
      | .ok j => buildRecord clsName defs (pyUpdate j kwargs)
      | .error e => .error e
  | Option.none => buildRecord clsName defs (pyUpdate [] kwargs)

/-- `JsonObjectImpl.to_json`: read every declared field into a plain
key/value map (failed/unset fields read as `None`). -/
def to_json : PVal → PVal
  | .obj _ fields => .dict fields
  | v => v

/-- A record type as an `SpType` (how `@JsonObject`-decorated classes are
used as field/return types: calling the class is the validator). -/
def recordSpType (clsName : String) (defs : List (String × SpType)) : SpType :=
  { name := clsName
    handleVal := fun v => jsonObjectNew clsName defs (some v) []
    defaultVal := .error (.invalidArg ("No default value for " ++ clsName)
      Option.none) }

/-! ## `spapi`: the API method compiler -/

/-- An API method descriptor (`spapi._API_METHOD`), as built by `GET`/`POST`:
HTTP verb, query template, positional argument types, optional JSON body type
and return type.  Path formatting and documentation are omitted. -/
structure ApiMethod where
  method : String
  query : String
  args : List SpType
  json : Option SpType
  returns : SpType
  multiCluster : Bool

/-- `spapi.GET(query, *args, **kwargs)`: asserts that a return type was
supplied (`assert 'returns' in kwargs`); a JSON body is accepted (at call
time it is sent as a `?json=` query parameter). -/
def GET (query : String) (args : List SpType) (kwJson : Option SpType)
    (kwReturns : Option SpType) (multiCluster : Bool) :
    Except SpErr ApiMethod :=
  match kwReturns with
  | Option.none =>
      .error (.plain "AssertionError" "GET requests must specify a return type")
  | some r =>
      .ok { method := "GET", query := query, args := args, json := kwJson,
            returns := r, multiCluster := multiCluster }

/-- Argument validation of a compiled API method: each positional argument is
validated in order through its type; the first failure propagates (fail
fast, unlike record fields). -/
def validateArgs : List SpType → List PVal → Except SpErr (List PVal)
  | [], [] => .ok []
  | t :: ts, a :: rest =>
      match t.handleVal a with
      | .ok v => (validateArgs ts rest).map (fun vs => v :: vs)
      | .error e => .error e
  | _, _ => .error (.plain "TypeError" "argument count mismatch")

/-- The body that `_API_METHOD.compile` generates: validate the arguments,
delegate to the transport (modelled by its decoded JSON `response`), then
decode through the return type; a decode failure that is an
`InvalidArgumentError` with a non-`None` partial returns the partial, any
other failure is re-raised. -/
def compiledCall (args : List SpType) (returns : SpType)
    (actuals : List PVal) (response : PVal) : Except SpErr PVal :=
  match validateArgs args actuals with
  | .error e => .error e
  | .ok _ =>
      match returns.handleVal response with
      | .ok v => .ok v
      | .error (.invalidArg m p) =>
          match p with
          | some pv => .ok pv
          | Option.none => .error (.invalidArg m Option.none)
      | .error (.plain k m) => .error (.plain k m)

example :
    (spList spTypeInt).handleVal (.list [.int 1, .str "x", .int 3])
      = .error (.invalidArg ("[int]: invalid literal for int(): x")
          (some (.list [.int 1, .int 3]))) := rfl

example :
    ObjectState.handleVal (.str "meow") = .error (.plain "KeyError" "argName") :=
  rfl

example : ObjectState.handleVal (.int 1) = .ok (.str "OBJECT_OK") := rfl

/-! ## Specification-side functions used to state the theorems -/

/-- What one `sp_catch` call leaves in the `data` accumulator it was handed
(empty start): the validated value on success, the non-`None` partial of an
`InvalidArgumentError`, nothing otherwise. -/
def resultStore : Except SpErr PVal → List PVal
  | .ok v => [v]
  | .error e =>
      match SpErr.partOf e with
      | some p => [p]
      | Option.none => []

/-- The exception-remembering rule of `sp_catch`, extracted: a step's outcome
updates the remembered exception exactly when nothing is remembered yet, or
when the remembered exception is not an `InvalidArgumentError` and the new
one is. -/
def remember (res : Except SpErr PVal) (exc : Option SpErr) : Option SpErr :=
  match res with
  | .ok _ => exc
  | .error e =>
      match exc with
      | Option.none => some e
      | some e0 =>
          if e0.isIA then some e0
          else if e.isIA then some e else some e0

/-- The exceptions raised by a sequence of independent validation steps, in
order. -/
def stepErrs (steps : List (Except SpErr PVal)) : List SpErr :=
  steps.filterMap (fun r =>
    match r with
    | .ok _ => Option.none
    | .error e => some e)

/-- Modelled from the spec's wording of the (amended) first-error rule, for
comparison with the code: the exception ultimately remembered is the first
`InvalidArgumentError` raised in the sequence if there is one, and otherwise
the first exception of any kind. -/
def firstReportedSpec (steps : List (Except SpErr PVal)) : Option SpErr :=
  match (stepErrs steps).find? SpErr.isIA with
  | some e => some e
  | Option.none => (stepErrs steps).head?

/-- The general `rememberSpec`: like `firstReportedSpec` but starting from an
already-remembered exception. -/
def rememberSpec (exc : Option SpErr) (errs : List SpErr) : Option SpErr :=
  match exc with
  | some e0 =>
      if e0.isIA then some e0
      else
        match errs.find? SpErr.isIA with
        | some e => some e
        | Option.none => some e0
  | Option.none =>
      match errs.find? SpErr.isIA with
      | some e => some e
      | Option.none => errs.head?

/-- A sequence of independent validation steps folded through `sp_catch` with
the usual `data.append` accumulator, as `spList.buildList` does. -/
def foldSteps (steps : List (Except SpErr PVal)) : List PVal × Option SpErr :=
  steps.foldl (fun acc r => sp_catch appendHandle acc.1 r acc.2)
    ([], Option.none)

/-- The attribute value stored for one field by `JsonObjectImpl.__new__`:
the validated value (or default), or the field's own failure partial, or
`None`. -/
def fieldOutcome (j : List (PVal × PVal)) (ad : String × SpType) : PVal :=
  match fieldStep j ad.1 ad.2 with
  | .ok v => v
  | .error e => (SpErr.partOf e).getD .none

/-- The full attribute map a record construction from raw map `j` produces. -/
def recFields (defs : List (String × SpType)) (j : List (PVal × PVal)) :
    List (PVal × PVal) :=
  defs.map (fun ad => (.str ad.1, fieldOutcome j ad))

/-- The partial dict contributed by one entry of `spDict.buildDict`:
a validated key is stored with the validated value, the value-failure
partial, or `None`; a key that fails with a partial is stored likewise under
that partial; a key that fails without a partial drops the entry. -/
def dictOutcome (keyT valT : PVal → Except SpErr PVal)
    (d : List (PVal × PVal)) (ent : PVal × PVal) : List (PVal × PVal) :=
  match keyT ent.1 with
  | .ok k =>
      upsertPy d k
        (match valT ent.2 with
         | .ok v => v
         | .error e2 => (SpErr.partOf e2).getD .none)
  | .error e =>
      match SpErr.partOf e with
      | some pk =>
          upsertPy d pk
            (match valT ent.2 with
             | .ok v => v
             | .error e2 => (SpErr.partOf e2).getD .none)
      | Option.none => d

/-- How one `buildDict` entry evolves the remembered exception: the key step
always counts; the value step runs only when the key step stored a key. -/
def dictExcStep (keyT valT : PVal → Except SpErr PVal)
    (exc : Option SpErr) (ent : PVal × PVal) : Option SpErr :=
  match keyT ent.1 with
  | .ok _ => remember (valT ent.2) (remember (keyT ent.1) exc)
  | .error e =>
      match SpErr.partOf e with
      | some _ => remember (valT ent.2) (remember (keyT ent.1) exc)
      | Option.none => remember (keyT ent.1) exc

/-- A validator whose `InvalidArgumentError` failures always carry a partial
value — as is the case for every list-of, map-of and record return type
declared in `spapi.py`. -/
def PartialCarrying (f : PVal → Except SpErr PVal) : Prop :=
  ∀ v m p, f v = .error (.invalidArg m p) → ∃ pv, p = some pv

/-! ## Basic lemmas about `sp_catch`, `sp_caught` and the exception fold -/

theorem sp_catch_snd {σ : Type} (handle : PVal → σ → σ) (s : σ)
    (res : Except SpErr PVal) (exc : Option SpErr) :
    (sp_catch handle s res exc).2 = remember res exc := by
  rcases res with e | v
  · rcases e with ⟨m, p⟩ | ⟨k, m⟩ <;> rcases exc with _ | e0
    · rfl
    · rcases e0 with ⟨m0, p0⟩ | ⟨k0, m0⟩ <;>
        simp [sp_catch, remember, SpErr.isIA]
    · rfl
    · rcases e0 with ⟨m0, p0⟩ | ⟨k0, m0⟩ <;>
        simp [sp_catch, remember, SpErr.isIA]
  · rfl

theorem sp_catch_append_fst (s : List PVal) (res : Except SpErr PVal)
    (exc : Option SpErr) :
    (sp_catch appendHandle s res exc).1 = s ++ resultStore res := by
  rcases res with e | v
  · rcases e with ⟨m, p⟩ | ⟨k, m⟩
    · rcases p with _ | pv <;> rcases exc with _ | e0 <;>
        try rcases e0 with ⟨m0, p0⟩ | ⟨k0, m0⟩
      all_goals simp [sp_catch, resultStore, SpErr.partOf, appendHandle]
    · rcases exc with _ | e0 <;>
        simp [sp_catch, resultStore, SpErr.partOf]
  · rfl

theorem remember_isSome (res : Except SpErr PVal) (e : SpErr) :
    ∃ e1, remember res (some e) = some e1 := by
  rcases res with e2 | v
  · simp only [remember]
    cases h : e.isIA
    · cases h2 : e2.isIA <;> simp [h, h2]
    · simp [h]
  · exact ⟨e, rfl⟩

theorem foldl_remember_eq_rememberSpec (steps : List (Except SpErr PVal))
    (exc : Option SpErr) :
    steps.foldl (fun e r => remember r e) exc
      = rememberSpec exc (stepErrs steps) := by
  induction steps generalizing exc with
  | nil =>
      rcases exc with _ | e0
      · rfl
      · simp only [List.foldl_nil, stepErrs, List.filterMap_nil, rememberSpec,
          List.find?_nil]
        cases h : e0.isIA <;> simp [h]
  | cons r rest ih =>
      rcases r with e | v
      · rw [List.foldl_cons]
        calc rest.foldl (fun e' r' => remember r' e') (remember (Except.error e) exc)
              = rememberSpec (remember (Except.error e) exc) (stepErrs rest) :=
                ih _
          _ = rememberSpec exc (stepErrs (Except.error e :: rest)) := by
              show rememberSpec (remember (Except.error e) exc) (stepErrs rest)
                = rememberSpec exc (e :: stepErrs rest)
              rcases exc with _ | e0
              · cases hia : e.isIA
                · simp only [remember, rememberSpec, hia, List.find?_cons,
                    cond_false, Bool.false_eq_true, if_false]
                  cases hf : (stepErrs rest).find? SpErr.isIA <;> simp [hf]
                · simp [remember, rememberSpec, hia, List.find?_cons]
              · cases hia0 : e0.isIA
                · cases hia : e.isIA
                  · have hr : remember (Except.error e) (some e0) = some e0 := by
                      simp [remember, hia0, hia]
                    rw [hr]
                    simp only [rememberSpec, hia0, Bool.false_eq_true, if_false,
                      List.find?_cons, hia, cond_false]
                  · have hr : remember (Except.error e) (some e0) = some e := by
                      simp [remember, hia0, hia]
                    rw [hr]
                    simp [rememberSpec, hia0, hia, List.find?_cons]
                · have hr : remember (Except.error e) (some e0) = some e0 := by
                    simp [remember, hia0]
                  rw [hr]
                  simp [rememberSpec, hia0]
      · rw [List.foldl_cons]
        exact ih exc

theorem rememberSpec_none_iff (errs : List SpErr) :
    rememberSpec Option.none errs = Option.none ↔ errs = [] := by
  constructor
  · intro h
    rcases errs with _ | ⟨e, rest⟩
    · rfl
    · exfalso
      simp only [rememberSpec] at h
      rcases hf : (e :: rest).find? SpErr.isIA with _ | e1 <;> simp [hf] at h
  · intro h
    subst h
    rfl

theorem rememberSpec_isSome (errs : List SpErr) (hne : errs ≠ []) :
    ∃ e1, rememberSpec Option.none errs = some e1 := by
  simp only [rememberSpec]
  rcases hf : errs.find? SpErr.isIA with _ | e1
  · rcases errs with _ | ⟨e, rest⟩
    · exact absurd rfl hne
    · exact ⟨e, rfl⟩
  · exact ⟨e1, rfl⟩

theorem sp_caught_eq_some (exc : Option SpErr) (name : String) (part : PVal)
    (e : SpErr) (h : sp_caught exc name part = some e) :
    ∃ m, e = .invalidArg m (some part) := by
  rcases exc with _ | e0
  · simp [sp_caught] at h
  · rcases e0 with ⟨m0, p0⟩ | ⟨k0, m0⟩ <;>
      simp only [sp_caught, Option.some.injEq] at h <;>
      exact ⟨_, h.symm⟩

/-! ## Lemmas about Python `==`, lookup and dict assignment -/

mutual

theorem pvalBeq_refl : (v : PVal) → pvalBeq v v = true
  | .none => rfl
  | .bool b => by simp [pvalBeq]
  | .int n => by simp [pvalBeq]
  | .str s => by simp [pvalBeq]
  | .list xs => by simp [pvalBeq, plistBeq_refl xs]
  | .dict xs => by simp [pvalBeq, pdictBeq_refl xs]
  | .obj c fs => by simp [pvalBeq, pdictBeq_refl fs]

theorem plistBeq_refl : (xs : List PVal) → plistBeq xs xs = true
  | [] => rfl
  | x :: xs => by simp [plistBeq, pvalBeq_refl x, plistBeq_refl xs]

theorem pdictBeq_refl : (xs : List (PVal × PVal)) → pdictBeq xs xs = true
  | [] => rfl
  | (k, v) :: xs => by
      simp [pdictBeq, pvalBeq_refl k, pvalBeq_refl v, pdictBeq_refl xs]

end

theorem lookupPy_append_self (d : List (PVal × PVal)) (k w : PVal)
    (h : d.any (fun kv => pvalBeq kv.1 k) = false) :
    lookupPy (d ++ [(k, w)]) k = some w := by
  induction d with
  | nil =>
      simp [lookupPy, List.find?_cons_of_pos, pvalBeq_refl]
  | cons kv rest ih =>
      simp only [List.any_cons, Bool.or_eq_false_iff] at h
      simp only [List.cons_append, lookupPy]
      rw [List.find?_cons_of_neg]
      · exact ih h.2
      · simp [h.1]

theorem lookupPy_replace (d : List (PVal × PVal)) (k w : PVal)
    (h : d.any (fun kv => pvalBeq kv.1 k) = true) :
    lookupPy (d.map (fun kv => if pvalBeq kv.1 k then (kv.1, w) else kv)) k
      = some w := by
  induction d with
  | nil => simp at h
  | cons kv rest ih =>
      cases hb : pvalBeq kv.1 k with
      | true =>
          simp only [List.map_cons, hb, if_true]
          simp only [lookupPy]
          rw [List.find?_cons_of_pos]
          · rfl
          · exact hb
      | false =>
          have h2 : rest.any (fun kv => pvalBeq kv.1 k) = true := by
            simp only [List.any_cons, hb, Bool.false_or] at h
            exact h
          simp only [List.map_cons, hb, Bool.false_eq_true, if_false]
          simp only [lookupPy] at ih ⊢
          rw [List.find?_cons_of_neg]
          · exact ih h2
          · simp [hb]

theorem lookupPy_upsertPy (d : List (PVal × PVal)) (k w : PVal) :
    lookupPy (upsertPy d k w) k = some w := by
  unfold upsertPy
  cases hany : d.any (fun kv => pvalBeq kv.1 k) with
  | true =>
      simp only [hany, if_true]
      exact lookupPy_replace d k w hany
  | false =>
      simp only [hany, Bool.false_eq_true, if_false]
      exact lookupPy_append_self d k w hany

/-! ## Characterizing the record builder -/

theorem resultStore_headD (r : Except SpErr PVal) :
    (resultStore r).headD PVal.none
      = (match r with
         | .ok v => v
         | .error e => (SpErr.partOf e).getD .none) := by
  rcases r with e | v
  · rcases e with ⟨m, p⟩ | ⟨k, m⟩
    · rcases p with _ | pv <;> rfl
    · rfl
  · rfl

theorem buildRecordFold_aux (defs : List (String × SpType))
    (j : List (PVal × PVal)) (acc : List (PVal × PVal)) (exc : Option SpErr) :
    defs.foldl (fun acc ad =>
        let c := sp_catch appendHandle [] (fieldStep j ad.1 ad.2) acc.2
        (acc.1 ++ [(.str ad.1, c.1.headD .none)], c.2)) (acc, exc)
      = (acc ++ recFields defs j,
         (defs.map (fun ad => fieldStep j ad.1 ad.2)).foldl
           (fun e r => remember r e) exc) := by
  induction defs generalizing acc exc with
  | nil => simp [recFields]
  | cons ad rest ih =>
      rw [List.foldl_cons]
      have hfst : (sp_catch appendHandle [] (fieldStep j ad.1 ad.2) exc).1.headD PVal.none
          = fieldOutcome j ad := by
        rw [sp_catch_append_fst, List.nil_append, resultStore_headD]
        rfl
      have hsnd : (sp_catch appendHandle [] (fieldStep j ad.1 ad.2) exc).2
          = remember (fieldStep j ad.1 ad.2) exc := sp_catch_snd _ _ _ _
      simp only [hfst, hsnd, ih, recFields, List.map_cons, List.foldl_cons,
        List.append_assoc, List.singleton_append]

theorem buildRecordFold_eq (defs : List (String × SpType))
    (j : List (PVal × PVal)) :
    buildRecordFold defs j
      = (recFields defs j,
         rememberSpec Option.none
           (stepErrs (defs.map (fun ad => fieldStep j ad.1 ad.2)))) := by
  unfold buildRecordFold
  rw [buildRecordFold_aux, List.nil_append, foldl_remember_eq_rememberSpec]

theorem buildRecord_ok (clsName : String) (defs : List (String × SpType))
    (j : List (PVal × PVal))
    (h : ∀ ad ∈ defs, ∃ v, fieldStep j ad.1 ad.2 = .ok v) :
    buildRecord clsName defs j = .ok (.obj clsName (recFields defs j)) := by
  have herrs : stepErrs (defs.map (fun ad => fieldStep j ad.1 ad.2)) = [] := by
    unfold stepErrs
    rw [List.filterMap_eq_nil_iff]
    intro r hr
    obtain ⟨ad, hmem, hEq⟩ := List.mem_map.mp hr
    obtain ⟨v, hv⟩ := h ad hmem
    rw [← hEq, hv]
  unfold buildRecord
  rw [buildRecordFold_eq, herrs]
  rfl

theorem buildRecord_fails (clsName : String) (defs : List (String × SpType))
    (j : List (PVal × PVal))
    (h : ∃ ad ∈ defs, ∃ e, fieldStep j ad.1 ad.2 = .error e) :
    ∃ m, buildRecord clsName defs j
      = .error (.invalidArg m (some (.obj clsName (recFields defs j)))) := by
  obtain ⟨ad, hmem, e, he⟩ := h
  have hne : stepErrs (defs.map (fun ad => fieldStep j ad.1 ad.2)) ≠ [] := by
    intro hnil
    unfold stepErrs at hnil
    rw [List.filterMap_eq_nil_iff] at hnil
    have hmm := hnil _ (List.mem_map_of_mem _ hmem)
    rw [he] at hmm
    simp at hmm
  obtain ⟨e0, he0⟩ := rememberSpec_isSome _ hne
  unfold buildRecord
  rw [buildRecordFold_eq, he0]
  rcases e0 with ⟨m0, p0⟩ | ⟨k0, m0⟩
  · exact ⟨clsName ++ ": " ++ m0, rfl⟩
  · exact ⟨clsName ++ ": " ++ m0, rfl⟩

theorem buildRecord_ok_inv (clsName : String) (defs : List (String × SpType))
    (j : List (PVal × PVal)) (r : PVal)
    (h : buildRecord clsName defs j = .ok r) :
    r = .obj clsName (recFields defs j)
    ∧ ∀ ad ∈ defs, ∃ v, fieldStep j ad.1 ad.2 = .ok v := by
  rcases hE : rememberSpec Option.none
      (stepErrs (defs.map (fun ad => fieldStep j ad.1 ad.2))) with _ | e0
  · have hb : buildRecord clsName defs j
        = .ok (.obj clsName (recFields defs j)) := by
      unfold buildRecord
      rw [buildRecordFold_eq, hE]
      rfl
    constructor
    · rw [hb] at h
      exact (Except.ok.inj h).symm
    · intro ad hmem
      have herrs := (rememberSpec_none_iff _).mp hE
      unfold stepErrs at herrs
      rw [List.filterMap_eq_nil_iff] at herrs
      have hstep := herrs _ (List.mem_map_of_mem _ hmem)
      rcases hv : fieldStep j ad.1 ad.2 with e | v
      · rw [hv] at hstep
        simp at hstep
      · exact ⟨v, rfl⟩
  · exfalso
    have hb : ∃ e1, buildRecord clsName defs j = .error e1 := by
      unfold buildRecord
      rw [buildRecordFold_eq, hE]
      rcases e0 with ⟨m0, p0⟩ | ⟨k0, m0⟩ <;> exact ⟨_, rfl⟩
    obtain ⟨e1, hb⟩ := hb
    rw [hb] at h
    exact Except.noConfusion h

/-! ## Characterizing the dict builder -/

theorem dictEntryStep_eq (keyT valT : PVal → Except SpErr PVal)
    (acc : List (PVal × PVal) × Option SpErr) (ent : PVal × PVal) :
    dictEntryStep keyT valT acc ent
      = (dictOutcome keyT valT acc.1 ent, dictExcStep keyT valT acc.2 ent) := by
  unfold dictEntryStep dictOutcome dictExcStep
  simp only [sp_catch_append_fst, sp_catch_snd, List.nil_append]
  rcases hk : keyT ent.1 with ek | k
  · rcases hp : SpErr.partOf ek with _ | pk
    · simp [resultStore, hp]
    · simp only [resultStore, hp]
      rcases hv : valT ent.2 with ev | v
      · rcases hq : SpErr.partOf ev with _ | pv <;>
          simp [resultStore, hq]
      · simp [resultStore]
  · simp only [resultStore]
    rcases hv : valT ent.2 with ev | v
    · rcases hq : SpErr.partOf ev with _ | pv <;>
        simp [resultStore, hq]
    · simp [resultStore]

theorem dictFold_eq (keyT valT : PVal → Except SpErr PVal)
    (xs : List (PVal × PVal)) (d : List (PVal × PVal)) (exc : Option SpErr) :
    xs.foldl (dictEntryStep keyT valT) (d, exc)
      = (xs.foldl (dictOutcome keyT valT) d,
         xs.foldl (dictExcStep keyT valT) exc) := by
  induction xs generalizing d exc with
  | nil => rfl
  | cons ent rest ih =>
      rw [List.foldl_cons, dictEntryStep_eq, List.foldl_cons, List.foldl_cons]
      exact ih _ _

theorem dictExcStep_isSome (keyT valT : PVal → Except SpErr PVal)
    (ent : PVal × PVal) (e : SpErr) :
    ∃ e1, dictExcStep keyT valT (some e) ent = some e1 := by
  unfold dictExcStep
  rcases hk : keyT ent.1 with ek | k
  · rcases hp : SpErr.partOf ek with _ | pk
    · simp only [hp]
      exact remember_isSome _ e
    · simp only [hp]
      obtain ⟨e1, h1⟩ := remember_isSome (Except.error ek) e
      rw [h1]
      exact remember_isSome _ e1
  · obtain ⟨e1, h1⟩ := remember_isSome (Except.ok k) e
    rw [h1]
    exact remember_isSome _ e1

theorem dictFold_exc_isSome (keyT valT : PVal → Except SpErr PVal)
    (xs : List (PVal × PVal)) (e : SpErr) :
    ∃ e1, xs.foldl (dictExcStep keyT valT) (some e) = some e1 := by
  induction xs generalizing e with
  | nil => exact ⟨e, rfl⟩
  | cons ent rest ih =>
      obtain ⟨e1, h1⟩ := dictExcStep_isSome keyT valT ent e
      rw [List.foldl_cons, h1]
      exact ih e1

/-! ## Failures of the composite validators always carry partials -/

theorem pyIter_error (v : PVal) (e : SpErr) (h : pyIter v = .error e) :
    ∃ k m, e = .plain k m := by
  rcases v <;> simp [pyIter] at h <;> exact ⟨_, _, h.symm⟩

theorem pyItems_error (v : PVal) (e : SpErr) (h : pyItems v = .error e) :
    ∃ k m, e = .plain k m := by
  rcases v <;> simp [pyItems] at h <;> exact ⟨_, _, h.symm⟩

theorem buildList_error (valT : PVal → Except SpErr PVal) (name : String)
    (v : PVal) (m : String) (p : Option PVal)
    (h : buildList valT name v = .error (.invalidArg m p)) :
    ∃ pv, p = some pv := by
  unfold buildList at h
  rcases hi : pyIter v with e | xs
  · rw [hi] at h
    obtain ⟨k, mm, hEq⟩ := pyIter_error v e hi
    subst hEq
    simp at h
  · rw [hi] at h
    dsimp only at h
    rcases hs : sp_caught (buildListFold valT xs).2 name
        (.list (buildListFold valT xs).1) with _ | e2
    · rw [hs] at h
      simp at h
    · rw [hs] at h
      obtain ⟨m2, hEq⟩ := sp_caught_eq_some _ _ _ _ hs
      subst hEq
      simp only [Except.error.injEq, SpErr.invalidArg.injEq] at h
      exact ⟨_, h.2.symm⟩

theorem spList_partialCarrying (sub : SpType) :
    PartialCarrying (spList sub).handleVal := by
  intro v m p h
  exact buildList_error _ _ _ _ _ h

theorem buildDict_error (keyT valT : PVal → Except SpErr PVal) (name : String)
    (v : PVal) (m : String) (p : Option PVal)
    (h : buildDict keyT valT name v = .error (.invalidArg m p)) :
    ∃ pv, p = some pv := by
  unfold buildDict at h
  rcases hi : pyItems v with e | xs
  · rw [hi] at h
    obtain ⟨k, mm, hEq⟩ := pyItems_error v e hi
    subst hEq
    simp at h
  · rw [hi] at h
    dsimp only at h
    rcases hs : sp_caught (xs.foldl (dictEntryStep keyT valT)
        ([], Option.none)).2 name
        (.dict (xs.foldl (dictEntryStep keyT valT) ([], Option.none)).1)
      with _ | e2
    · rw [hs] at h
      simp at h
    · rw [hs] at h
      obtain ⟨m2, hEq⟩ := sp_caught_eq_some _ _ _ _ hs
      subst hEq
      simp only [Except.error.injEq, SpErr.invalidArg.injEq] at h
      exact ⟨_, h.2.symm⟩

theorem spDict_partialCarrying (keySt valSt : SpType) :
    PartialCarrying (spDict keySt valSt).handleVal := by
  intro v m p h
  exact buildDict_error _ _ _ _ _ _ h

theorem buildRecord_error_partial (clsName : String)
    (defs : List (String × SpType)) (j : List (PVal × PVal))
    (m : String) (p : Option PVal)
    (h : buildRecord clsName defs j = .error (.invalidArg m p)) :
    ∃ pv, p = some pv := by
  unfold buildRecord at h
  dsimp only at h
  rcases hs : sp_caught (buildRecordFold defs j).2 clsName
      (.obj clsName (buildRecordFold defs j).1) with _ | e2
  · rw [hs] at h
    simp at h
  · rw [hs] at h
    obtain ⟨m2, hEq⟩ := sp_caught_eq_some _ _ _ _ hs
    subst hEq
    simp only [Except.error.injEq, SpErr.invalidArg.injEq] at h
    exact ⟨_, h.2.symm⟩

theorem recordSpType_partialCarrying (clsName : String)
    (defs : List (String × SpType)) :
    PartialCarrying (recordSpType clsName defs).handleVal := by
  intro v m p h
  simp only [recordSpType] at h
  rcases v with _ | b | n | s | xs | xs | ⟨cn, fields⟩
  · rw [show jsonObjectNew clsName defs (some PVal.none) []
      = .error (.plain "TypeError" "cannot convert object to dict") from rfl] at h
    simp at h
  · rw [show jsonObjectNew clsName defs (some (.bool b)) []
      = .error (.plain "TypeError" "cannot convert object to dict") from rfl] at h
    simp at h
  · rw [show jsonObjectNew clsName defs (some (.int n)) []
      = .error (.plain "TypeError" "cannot convert object to dict") from rfl] at h
    simp at h
  · rw [show jsonObjectNew clsName defs (some (.str s)) []
      = .error (.plain "TypeError" "cannot convert object to dict") from rfl] at h
    simp at h
  · rw [show jsonObjectNew clsName defs (some (.list xs)) []
      = .error (.plain "TypeError" "cannot convert object to dict") from rfl] at h
    simp at h
  · rw [show jsonObjectNew clsName defs (some (.dict xs)) []
      = buildRecord clsName defs xs from rfl] at h
    exact buildRecord_error_partial _ _ _ _ _ h
  · rw [show jsonObjectNew clsName defs (some (.obj cn fields)) []
      = (if cn = clsName then .ok (.obj cn fields)
         else buildRecord clsName defs fields) from rfl] at h
    by_cases hc : cn = clsName
    · rw [if_pos hc] at h
      simp at h
    · rw [if_neg hc] at h
      exact buildRecord_error_partial _ _ _ _ _ h

/-! ## Lookup in a freshly built attribute map; `either`; step folds -/

theorem lookupPy_recFields (defs : List (String × SpType))
    (j : List (PVal × PVal)) (ad : String × SpType)
    (hmem : ad ∈ defs) (hnodup : (defs.map Prod.fst).Nodup) :
    lookupPy (recFields defs j) (.str ad.1) = some (fieldOutcome j ad) := by
  unfold recFields
  induction defs with
  | nil => cases hmem
  | cons d rest ih =>
      rcases List.mem_cons.mp hmem with hEq | hm
      · subst hEq
        simp only [List.map_cons, lookupPy]
        rw [List.find?_cons_of_pos]
        · rfl
        · show pvalBeq (.str ad.1) (.str ad.1) = true
          exact pvalBeq_refl _
      · have hd : d.1 ≠ ad.1 := by
          have h1 : ad.1 ∈ rest.map Prod.fst := List.mem_map_of_mem _ hm
          have h2 := (List.nodup_cons.mp hnodup).1
          intro hEq
          rw [hEq] at h2
          exact h2 h1
        simp only [List.map_cons, lookupPy]
        rw [List.find?_cons_of_neg]
        · exact ih hm (List.nodup_cons.mp hnodup).2
        · show ¬ pvalBeq (.str d.1) (.str ad.1) = true
          simp only [pvalBeq, beq_iff_eq]
          exact hd

theorem eitherHandle_first_success (pre post : List SpType) (t : SpType)
    (v r : PVal)
    (hpre : ∀ t2 ∈ pre, ∃ e, t2.handleVal v = .error e)
    (ht : t.handleVal v = .ok r) :
    eitherHandle (pre ++ t :: post) v = .ok r := by
  induction pre with
  | nil =>
      rw [List.nil_append]
      unfold eitherHandle
      rw [ht]
  | cons t0 rest ih =>
      obtain ⟨e0, he0⟩ := hpre t0 (by simp)
      rw [List.cons_append]
      unfold eitherHandle
      rw [he0]
      exact ih (fun t2 hm => hpre t2 (by simp [hm]))

theorem eitherHandle_all_fail (types : List SpType) (v : PVal)
    (h : ∀ t ∈ types, ∃ e, t.handleVal v = .error e) :
    eitherHandle types v
      = .error (.invalidArg "The value does not match any type" Option.none) := by
  induction types with
  | nil => rfl
  | cons t rest ih =>
      obtain ⟨e0, he0⟩ := h t (by simp)
      unfold eitherHandle
      rw [he0]
      exact ih (fun t2 hm => h t2 (by simp [hm]))

theorem foldSteps_snd_aux (steps : List (Except SpErr PVal))
    (s0 : List PVal) (e0 : Option SpErr) :
    (steps.foldl (fun acc r => sp_catch appendHandle acc.1 r acc.2) (s0, e0)).2
      = steps.foldl (fun e r => remember r e) e0 := by
  induction steps generalizing s0 e0 with
  | nil => rfl
  | cons r rest ih =>
      rw [List.foldl_cons, List.foldl_cons]
      have h2 := sp_catch_snd appendHandle s0 r e0
      calc (rest.foldl (fun acc r' => sp_catch appendHandle acc.1 r' acc.2)
              (sp_catch appendHandle s0 r e0)).2
          = rest.foldl (fun e r' => remember r' e)
              (sp_catch appendHandle s0 r e0).2 :=
            ih (sp_catch appendHandle s0 r e0).1 (sp_catch appendHandle s0 r e0).2
        _ = rest.foldl (fun e r' => remember r' e) (remember r e0) := by rw [h2]

/-! ## The claims -/

/-- Claim C2 (confirmed): validating a list-of(int) descriptor against
`[1, "x", 3]` raises an `InvalidArgumentError` whose partial payload is
exactly the list `[1, 3]`: each element is validated independently, the bad
element is dropped, and the relative order of the valid elements is kept. -/
theorem c2_list_partial_collection :
    (spList spTypeInt).handleVal (.list [.int 1, .str "x", .int 3])
      = .error (.invalidArg "[int]: invalid literal for int(): x"
          (some (.list [.int 1, .int 3]))) := rfl

/-- Claim C3 (amended): across a sequence of independent validation steps
folded through `sp_catch`, the remembered (and hence finally reported)
exception is the FIRST `InvalidArgumentError` raised in the sequence if any
step raises one, and otherwise the first exception of any kind; a later
`InvalidArgumentError` replaces an earlier remembered plain exception, so
plain first-error-wins does not hold across kinds. -/
theorem c3_remembered_exception (steps : List (Except SpErr PVal)) :
    (foldSteps steps).2 = firstReportedSpec steps := by
  unfold foldSteps
  rw [foldSteps_snd_aux, foldl_remember_eq_rememberSpec]
  rfl

/-- Claim C3, counterexample to the original statement: when a plain
`ValueError` is raised first and an `InvalidArgumentError` second, the
exception remembered by the fold is the SECOND one, not the first raised. -/
theorem c3_counterexample :
    (foldSteps [.error (.plain "ValueError" "first"),
                .error (.invalidArg "second" Option.none)]).2
      = some (.invalidArg "second" Option.none)
    ∧ (stepErrs [.error (.plain "ValueError" "first"),
                 .error (.invalidArg "second" Option.none)]).head?
      = some (.plain "ValueError" "first")
    ∧ SpErr.invalidArg "second" Option.none ≠ SpErr.plain "ValueError" "first" :=
  ⟨rfl, rfl, fun h => SpErr.noConfusion h⟩

/-- Claim C5 (confirmed): constructing a record from an existing instance of
the same record type returns that instance unchanged, and any keyword
override in that case fails the `assert not kwargs` (an `AssertionError`,
i.e. invalid usage). -/
theorem c5_idempotent_rewrap (clsName : String) (defs : List (String × SpType))
    (fields : List (PVal × PVal)) (kv : String × PVal)
    (kws : List (String × PVal)) :
    jsonObjectNew clsName defs (some (.obj clsName fields)) []
      = .ok (.obj clsName fields)
    ∧ jsonObjectNew clsName defs (some (.obj clsName fields)) (kv :: kws)
      = .error (.plain "AssertionError"
          "Unsupported update on already contructed object") := by
  constructor
  · rw [show jsonObjectNew clsName defs (some (.obj clsName fields)) []
      = (if clsName = clsName then .ok (.obj clsName fields)
         else buildRecord clsName defs fields) from rfl]
    rw [if_pos rfl]
  · rw [show jsonObjectNew clsName defs (some (.obj clsName fields)) (kv :: kws)
      = (if clsName = clsName then
           .error (.plain "AssertionError"
             "Unsupported update on already contructed object")
         else buildRecord clsName defs (pyUpdate fields (kv :: kws))) from rfl]
    rw [if_pos rfl]

/-- Claim C7 (confirmed): `either(T1..Tn)` tries each component validator in
declaration order and returns the result of the first one that succeeds; it
fails only when all components fail, and then with the generic "no match"
`InvalidArgumentError` carrying no partial value. -/
theorem c7_either_first_match (types : List SpType) (v : PVal) :
    (∀ pre post (t : SpType) (r : PVal),
        types = pre ++ t :: post →
        (∀ t2 ∈ pre, ∃ e, t2.handleVal v = .error e) →
        t.handleVal v = .ok r →
        (either types).handleVal v = .ok r)
    ∧ ((∀ t ∈ types, ∃ e, t.handleVal v = .error e) →
        (either types).handleVal v
          = .error (.invalidArg "The value does not match any type"
              Option.none)) := by
  constructor
  · intro pre post t r hsplit hpre ht
    show eitherHandle types v = .ok r
    rw [hsplit]
    exact eitherHandle_first_success pre post t v r hpre ht
  · intro h
    exact eitherHandle_all_fail types v h

/-- Claim C7, witness: `either(const("off"), intRange(0,5))` applied to
`"off"` succeeds through the first branch even though the second branch
would fail to coerce the string. -/
theorem c7_witness :
    (either [const (.str "off"), intRange "OnOff" 0 5]).handleVal (.str "off")
      = .ok (.str "off") := by
  refine (c7_either_first_match [const (.str "off"), intRange "OnOff" 0 5]
      (.str "off")).1 [] [intRange "OnOff" 0 5] (const (.str "off"))
      (.str "off") rfl ?_ rfl
  intro t2 hmem
  cases hmem

/-- Claim C8 (code bug): the `namedEnum` validator (`sptypes.ObjectState`)
applied to a non-numeric string raises a `KeyError` naming `argName` — the
`except ValueError` branch calls `error` with a format string referencing
`argName` but without the `argName` keyword, so the message formatting itself
raises — instead of the documented descriptive `InvalidArgumentError`. -/
theorem c8_namedenum_raises_keyerror :
    ObjectState.handleVal (.str "meow") = .error (.plain "KeyError" "argName")
    ∧ ∀ m p, SpErr.plain "KeyError" "argName" ≠ SpErr.invalidArg m p :=
  ⟨rfl, fun m p h => SpErr.noConfusion h⟩

/-- Claim C9 (amended): declaring a GET method WITHOUT a return type fails
immediately with an assertion-style error; a GET method WITH a JSON body is
accepted at declaration time (the body is sent as a query parameter at call
time), and an `either` type with zero alternatives is also constructed
successfully at declaration time — every validation through it then fails
with the generic "no match" error. -/
theorem c9_declaration_checks (q : String) (args : List SpType)
    (json : Option SpType) (mc : Bool) (jt rt : SpType) (v : PVal) :
    GET q args json Option.none mc
      = .error (.plain "AssertionError"
          "GET requests must specify a return type")
    ∧ (∃ m, GET q args (some jt) (some rt) mc = .ok m)
    ∧ (either []).handleVal v
      = .error (.invalidArg "The value does not match any type" Option.none) :=
  ⟨rfl, ⟨_, rfl⟩, rfl⟩

/-- Claim C9, counterexample to the original statement: a GET declaration
with a JSON body (as `spapi.py` itself declares, e.g.
`Api.allPeersActiveRequests`) succeeds at declaration time, and `either()`
with zero alternatives is constructed without any declaration-time failure,
failing only when a value is validated through it. -/
theorem c9_counterexample :
    (GET "AllPeersActiveRequests" []
        (some (recordSpType "AllPeersActiveRequestsQuery" []))
        (some (recordSpType "AllPeersActiveRequests" [])) false).isOk = true
    ∧ (either []).handleVal (.int 0)
      = .error (.invalidArg "The value does not match any type" Option.none) :=
  ⟨rfl, rfl⟩

theorem buildDict_fails (keyT valT : PVal → Except SpErr PVal) (name : String)
    (entries : List (PVal × PVal))
    (h : ∃ e1, entries.foldl (dictExcStep keyT valT) Option.none = some e1) :
    ∃ m, buildDict keyT valT name (.dict entries)
      = .error (.invalidArg m
          (some (.dict (entries.foldl (dictOutcome keyT valT) [])))) := by
  obtain ⟨e1, he1⟩ := h
  unfold buildDict
  dsimp only [pyItems]
  rw [dictFold_eq]
  dsimp only
  rw [he1]
  rcases e1 with ⟨m1, p1⟩ | ⟨k1, m1⟩
  · exact ⟨name ++ ": " ++ m1, rfl⟩
  · exact ⟨name ++ ": " ++ m1, rfl⟩

/-- Claim C1 (amended): for a record whose raw map makes exactly one field's
validation fail, construction attempts every field and raises an
`InvalidArgumentError` whose partial payload is the instance holding, for
every other field, its validated value (or default), and for the failing
field the partial value carried by that field's own failure — which is
`None` exactly when the failure carries no partial (as for every scalar
field validator). -/
theorem c1_single_invalid_field (clsName : String)
    (defs : List (String × SpType)) (j : List (PVal × PVal))
    (k : Nat) (hk : k < defs.length) (e : SpErr)
    (hfail : fieldStep j (defs.get ⟨k, hk⟩).1 (defs.get ⟨k, hk⟩).2 = .error e)
    (hothers : ∀ i (hi : i < defs.length), i ≠ k →
        ∃ v, fieldStep j (defs.get ⟨i, hi⟩).1 (defs.get ⟨i, hi⟩).2 = .ok v) :
    (∃ m, buildRecord clsName defs j
        = .error (.invalidArg m (some (.obj clsName (recFields defs j)))))
    ∧ (∀ i (hi : i < defs.length) (v : PVal),
        fieldStep j (defs.get ⟨i, hi⟩).1 (defs.get ⟨i, hi⟩).2 = .ok v →
          fieldOutcome j (defs.get ⟨i, hi⟩) = v)
    ∧ fieldOutcome j (defs.get ⟨k, hk⟩) = (SpErr.partOf e).getD .none := by
  refine ⟨?_, ?_, ?_⟩
  · exact buildRecord_fails clsName defs j
      ⟨defs.get ⟨k, hk⟩, List.get_mem defs k hk, e, hfail⟩
  · intro i hi v hv
    unfold fieldOutcome
    rw [hv]
  · unfold fieldOutcome
    rw [hfail]

/-- Claim C1, witness: a two-field record `{a: int, b: int}` built from
`{a: 1, b: "x"}` fails with a partial instance carrying `a = 1` and
`b = None`. -/
theorem c1_witness :
    ∃ m, buildRecord "Rec" [("a", spTypeInt), ("b", spTypeInt)]
        [(.str "a", .int 1), (.str "b", .str "x")]
      = .error (.invalidArg m (some (.obj "Rec"
          (recFields [("a", spTypeInt), ("b", spTypeInt)]
            [(.str "a", .int 1), (.str "b", .str "x")])))) := by
  refine (c1_single_invalid_field "Rec" [("a", spTypeInt), ("b", spTypeInt)]
      [(.str "a", .int 1), (.str "b", .str "x")] 1 (by norm_num)
      (.plain "ValueError" "invalid literal for int(): x") rfl ?_).1
  intro i hi hne
  rcases i with _ | _ | i
  · exact ⟨.int 1, rfl⟩
  · exact absurd rfl hne
  · simp only [List.length_cons, List.length_nil] at hi
    omega

/-- Claim C1, counterexample to the original statement: in a record
`{a: int, b: [int]}` built from `{a: 1, b: [1, "x", 3]}` exactly one field
(`b`) is invalid, yet the partial payload holds `b = [1, 3]` — the field's
own partial list — and not `None` as the claim demands. -/
theorem c1_counterexample :
    fieldStep [(.str "a", .int 1), (.str "b", .list [.int 1, .str "x", .int 3])]
        "a" spTypeInt = .ok (.int 1)
    ∧ (∃ m p, fieldStep
        [(.str "a", .int 1), (.str "b", .list [.int 1, .str "x", .int 3])]
        "b" (spList spTypeInt) = .error (.invalidArg m p))
    ∧ buildRecord "Rec" [("a", spTypeInt), ("b", spList spTypeInt)]
        [(.str "a", .int 1), (.str "b", .list [.int 1, .str "x", .int 3])]
      = .error (.invalidArg "Rec: [int]: invalid literal for int(): x"
          (some (.obj "Rec"
            [(.str "a", .int 1), (.str "b", .list [.int 1, .int 3])])))
    ∧ PVal.list [.int 1, .int 3] ≠ PVal.none :=
  ⟨rfl, ⟨_, _, rfl⟩, rfl, fun h => PVal.noConfusion h⟩

/-- Claim C4 (confirmed): for a compiled API method whose return descriptor
only ever fails with partial-carrying `InvalidArgumentError`s — as holds for
every list-of, map-of and record return type declared in `spapi.py` — when
decoding the transport's response fails with an `InvalidArgumentError` the
call returns the error's partial value instead of propagating, and when
decoding fails with any other exception that exception propagates. -/
theorem c4_response_decode (args : List SpType) (returns : SpType)
    (actuals : List PVal) (response : PVal)
    (hargs : ∃ vs, validateArgs args actuals = .ok vs)
    (hpc : PartialCarrying returns.handleVal) :
    (∀ m p, returns.handleVal response = .error (.invalidArg m p) →
        ∃ pv, p = some pv
          ∧ compiledCall args returns actuals response = .ok pv)
    ∧ (∀ k m, returns.handleVal response = .error (.plain k m) →
        compiledCall args returns actuals response = .error (.plain k m)) := by
  obtain ⟨vs, hvs⟩ := hargs
  constructor
  · intro m p hdec
    obtain ⟨pv, hp⟩ := hpc response m p hdec
    subst hp
    refine ⟨pv, rfl, ?_⟩
    unfold compiledCall
    rw [hvs, hdec]
  · intro k m hdec
    unfold compiledCall
    rw [hvs, hdec]

/-- Claim C4, witness: a method returning list-of(int), given the response
`["x"]`, returns the partial list `[]` instead of raising. -/
theorem c4_witness :
    compiledCall [] (spList spTypeInt) [] (.list [.str "x"]) = .ok (.list []) := by
  obtain ⟨pv, hp, hc⟩ :=
    (c4_response_decode [] (spList spTypeInt) [] (.list [.str "x"])
        ⟨[], rfl⟩ (spList_partialCarrying spTypeInt)).1
      "[int]: invalid literal for int(): x" (some (.list [])) rfl
  cases hp
  exact hc

/-- Claim C6 (amended): for a successfully constructed record instance whose
field names are distinct and whose field validators each accept their own
output unchanged (true of the scalar, string, list, dict and record types
here, but violated by `namedEnum`'s integer-to-name mapping), constructing a
new instance of the same record type from the instance's `to_json` map
succeeds and yields a field-by-field equal instance. -/
theorem c6_round_trip (clsName : String) (defs : List (String × SpType))
    (j : List (PVal × PVal)) (r : PVal)
    (hok : buildRecord clsName defs j = .ok r)
    (hnodup : (defs.map Prod.fst).Nodup)
    (hidem : ∀ ad ∈ defs, ∀ v : PVal,
        fieldStep j ad.1 ad.2 = .ok v → ad.2.handleVal v = .ok v) :
    jsonObjectNew clsName defs (some (to_json r)) [] = .ok r := by
  obtain ⟨hr, hsteps⟩ := buildRecord_ok_inv clsName defs j r hok
  subst hr
  rw [show to_json (.obj clsName (recFields defs j))
      = .dict (recFields defs j) from rfl]
  rw [show jsonObjectNew clsName defs (some (.dict (recFields defs j))) []
      = buildRecord clsName defs (recFields defs j) from rfl]
  have hsteps2 : ∀ ad ∈ defs,
      fieldStep (recFields defs j) ad.1 ad.2 = .ok (fieldOutcome j ad) := by
    intro ad hmem
    obtain ⟨v, hv⟩ := hsteps ad hmem
    have hl := lookupPy_recFields defs j ad hmem hnodup
    unfold fieldStep
    rw [hl]
    have hout : fieldOutcome j ad = v := by
      unfold fieldOutcome
      rw [hv]
    rw [hout]
    exact hidem ad hmem v hv
  have hok2 := buildRecord_ok clsName defs (recFields defs j)
    (fun ad hm => ⟨_, hsteps2 ad hm⟩)
  rw [hok2]
  have hmap : recFields defs (recFields defs j) = recFields defs j := by
    show defs.map (fun ad => (PVal.str ad.1, fieldOutcome (recFields defs j) ad))
        = defs.map (fun ad => (PVal.str ad.1, fieldOutcome j ad))
    apply List.map_congr_left
    intro ad hmem
    have h2 := hsteps2 ad hmem
    have h3 : fieldOutcome (recFields defs j) ad = fieldOutcome j ad := by
      rw [show fieldOutcome (recFields defs j) ad
          = (match fieldStep (recFields defs j) ad.1 ad.2 with
             | Except.ok v => v
             | Except.error e => (SpErr.partOf e).getD PVal.none) from rfl,
        h2]
    rw [h3]
  rw [hmap]

/-- Claim C6, witness: the one-field record `{number: int}` built from
`{number: 3}` round-trips through `to_json`. -/
theorem c6_witness :
    jsonObjectNew "TrivialClass" [("number", spTypeInt)]
        (some (to_json (.obj "TrivialClass" [(.str "number", .int 3)]))) []
      = .ok (.obj "TrivialClass" [(.str "number", .int 3)]) := by
  apply c6_round_trip "TrivialClass" [("number", spTypeInt)]
      [(.str "number", .int 3)]
  · rfl
  · simp
  · intro ad hmem v hv
    simp only [List.mem_singleton] at hmem
    subst hmem
    rw [show fieldStep [(.str "number", .int 3)] "number" spTypeInt
        = .ok (.int 3) from rfl] at hv
    cases hv
    rfl

/-- Claim C6, counterexample to the original statement: a record with a
`namedEnum`-typed field (like `sptypes.DiskObject`'s `state: ObjectState`)
constructs successfully from `{state: 1}`, storing the name
`"OBJECT_OK"`; re-validating its own `to_json` output then fails (the enum
validator cannot parse the name back), so the round-trip does not hold for
every successfully constructed instance. -/
theorem c6_counterexample :
    jsonObjectNew "DiskObject" [("state", ObjectState)]
        (some (.dict [(.str "state", .int 1)])) []
      = .ok (.obj "DiskObject" [(.str "state", .str "OBJECT_OK")])
    ∧ jsonObjectNew "DiskObject" [("state", ObjectState)]
        (some (to_json (.obj "DiskObject" [(.str "state", .str "OBJECT_OK")]))) []
      = .error (.invalidArg "DiskObject: argName"
          (some (.obj "DiskObject" [(.str "state", PVal.none)]))) :=
  ⟨rfl, rfl⟩

/-- Claim C10 (amended): for a map-of(K,V) validation in which an entry's key
validates but its value fails, the overall validation raises an
`InvalidArgumentError` whose partial dict contains that entry, with the
validated key mapped to the partial value carried by the value's failure
(`None` exactly when the failure carries none), and the remaining entries
are still processed through the same per-entry step; moreover any entry
whose key validates is present in the per-entry result, so entries are
dropped only on key-validation failure. -/
theorem c10_dict_entry_outcomes (keyT valT : PVal → Except SpErr PVal)
    (name : String) (k v tk : PVal) (e : SpErr) (rest : List (PVal × PVal))
    (hk : keyT k = .ok tk) (hv : valT v = .error e) :
    (∃ m, buildDict keyT valT name (.dict ((k, v) :: rest))
        = .error (.invalidArg m (some (.dict
            (rest.foldl (dictOutcome keyT valT)
              [(tk, (SpErr.partOf e).getD .none)])))))
    ∧ (∀ (d : List (PVal × PVal)) (ent : PVal × PVal) (tk2 : PVal),
        keyT ent.1 = .ok tk2 →
        ∃ w, lookupPy (dictOutcome keyT valT d ent) tk2 = some w) := by
  constructor
  · have hout1 : dictOutcome keyT valT [] (k, v)
        = [(tk, (SpErr.partOf e).getD .none)] := by
      unfold dictOutcome
      dsimp only
      rw [hk, hv]
      rfl
    have hexc1 : dictExcStep keyT valT Option.none (k, v) = some e := by
      unfold dictExcStep
      dsimp only
      rw [hk, hv]
      rfl
    have hsome : ∃ e1, ((k, v) :: rest).foldl (dictExcStep keyT valT)
        Option.none = some e1 := by
      rw [List.foldl_cons, hexc1]
      exact dictFold_exc_isSome keyT valT rest e
    obtain ⟨m, hm⟩ := buildDict_fails keyT valT name ((k, v) :: rest) hsome
    refine ⟨m, ?_⟩
    rw [hm, List.foldl_cons, hout1]
  · intro d ent tk2 hk2
    unfold dictOutcome
    rw [hk2]
    exact ⟨_, lookupPy_upsertPy d tk2 _⟩

/-- Claim C10, witness: validating map-of(int, list-of(int)) against
`{1: [1, "x"]}` fails with partial dict `{1: [1]}` — the key stays, mapped
to the value's own partial list. -/
theorem c10_witness :
    ∃ m, buildDict spTypeInt.handleVal (spList spTypeInt).handleVal
        "\x7bint: [int]\x7d" (.dict [(.int 1, .list [.int 1, .str "x"])])
      = .error (.invalidArg m (some (.dict [(.int 1, .list [.int 1])]))) := by
  have h := (c10_dict_entry_outcomes spTypeInt.handleVal
      (spList spTypeInt).handleVal "\x7bint: [int]\x7d" (.int 1)
      (.list [.int 1, .str "x"]) (.int 1)
      (.invalidArg "[int]: invalid literal for int(): x"
        (some (.list [.int 1]))) [] rfl rfl).1
  exact h

/-- Claim C10, counterexample to the original statement: in map-of(int,
list-of(int)) applied to `{1: [1, "x"]}`, the key `1` validates and the
value fails, but the partial result maps `1` to the value's partial `[1]`,
not to `None` as the claim demands. -/
theorem c10_counterexample :
    buildDict spTypeInt.handleVal (spList spTypeInt).handleVal "\x7bint: [int]\x7d"
        (.dict [(.int 1, .list [.int 1, .str "x"])])
      = .error (.invalidArg "\x7bint: [int]\x7d: [int]: invalid literal for int(): x"
          (some (.dict [(.int 1, .list [.int 1])])))
    ∧ PVal.list [.int 1] ≠ PVal.none :=
  ⟨rfl, fun h => PVal.noConfusion h⟩
